import Mathlib

/-!
Shallow embedding of `src/observer.py` (Observer pattern demo).

The Python module defines an abstract `Subject` / `Observer` pair and the
concrete classes `ConcreteSubject`, `ConcreteObserverA`, `ConcreteObserverB`.
We embed:

* observers as values carrying their concrete class (`ObsKind.A` / `ObsKind.B`)
  together with an object identity (`id : Nat`), since Python's default
  equality used by `list.remove` is object identity;
* the per-instance view of a `ConcreteSubject` as a structure holding `state`
  (initially `None`, embedded as `Option Int`) and the observer list;
* Python exceptions as an explicit `Except` result: `list.remove` on a missing
  element raises `ValueError`, and `None < 8` / `None > 4` raise `TypeError`
  in Python 3;
* console output of the observers as a list of `LogEvent`s;
* `random.randrange(0, 10)` as a seed-indexed choice `lo + seed % (hi - lo)`,
  so that the draw is an arbitrary-but-fixed integer in `[lo, hi)`;
* the class-level attribute `ConcreteSubject._observers = []`, which in Python
  is a single list object shared by every instance, as a separate `ClassWorld`
  model with one global list and per-instance states.
-/

namespace ObserverPy

/-- The concrete observer class of an observer object:
`ConcreteObserverA` or `ConcreteObserverB`. -/
inductive ObsKind
  | A
  | B
deriving DecidableEq, Repr

/-- An observer object: its concrete class and its object identity.
Two observers are equal exactly when they are the same reference,
matching Python's default `==` used by `list.remove`. -/
structure Obs where
  kind : ObsKind
  id : Nat
deriving DecidableEq, Repr

/-- The Python exceptions the module can raise. -/
inductive PyError
  | typeError
  | valueError
deriving DecidableEq, Repr

/-- Console lines printed by observer reactions
(`ConcreteObserverA: react to the event`, resp. `...B...`). -/
inductive LogEvent
  | reactA
  | reactB
deriving DecidableEq, Repr

/-- `ConcreteObserverA.update(self, subject)`: evaluates `subject.state < 8`;
if `state` is `None` the comparison raises `TypeError`, otherwise it prints
the reaction exactly when `state < 8`. -/
def ConcreteObserverA.update (state : Option Int) : Except PyError (List LogEvent) :=
  match state with
  | none => .error .typeError
  | some s => .ok (if s < 8 then [.reactA] else [])

/-- `ConcreteObserverB.update(self, subject)`: evaluates `subject.state > 4`;
if `state` is `None` the comparison raises `TypeError`, otherwise it prints
the reaction exactly when `state > 4`. -/
def ConcreteObserverB.update (state : Option Int) : Except PyError (List LogEvent) :=
  match state with
  | none => .error .typeError
  | some s => .ok (if s > 4 then [.reactB] else [])

/-- Dynamic dispatch of `observer.update(self)`: the observer reads
`subject.state` and reacts according to its concrete class. -/
def Obs.update (o : Obs) (state : Option Int) : Except PyError (List LogEvent) :=
  match o.kind with
  | .A => ConcreteObserverA.update state
  | .B => ConcreteObserverB.update state

/-- Per-instance view of a `ConcreteSubject`: its `state` (class default
`None`) and the observer list it reads through `self._observers`. -/
structure ConcreteSubject where
  state : Option Int
  observers : List Obs
deriving DecidableEq, Repr

/-- A `ConcreteSubject` as constructed, before any method call:
`state` is the class default `None` and no observer is attached. -/
def freshSubject : ConcreteSubject := { state := none, observers := [] }

/-- `ConcreteSubject.attach(self, observer)`: `self._observers.append(observer)`. -/
def ConcreteSubject.attach (st : ConcreteSubject) (o : Obs) : ConcreteSubject :=
  { st with observers := st.observers ++ [o] }

/-- Python's `list.remove(x)`: removes the first element equal to `x`,
raising `ValueError` when no element is equal to `x`. -/
def listRemove : List Obs → Obs → Except PyError (List Obs)
  | [], _ => .error .valueError
  | y :: ys, x => if y = x then .ok ys else Except.map (fun l => y :: l) (listRemove ys x)

/-- `ConcreteSubject.detach(self, observer)`: `self._observers.remove(observer)`.
On `ValueError` the exception propagates and the list is left as it was. -/
def ConcreteSubject.detach (st : ConcreteSubject) (o : Obs) :
    ConcreteSubject × Option PyError :=
  match listRemove st.observers o with
  | .ok l => ({ st with observers := l }, none)
  | .error e => (st, some e)

/-- The loop body of `ConcreteSubject.notify`:
`for observer in self._observers: observer.update(self)`.
Returns the observers whose `update` was invoked (in invocation order), the
console lines printed by the reactions, and the propagated exception, if any:
an exception stops the iteration at the raising observer. -/
def runUpdates (upd : Obs → Except PyError (List LogEvent)) :
    List Obs → List Obs × List LogEvent × Option PyError
  | [] => ([], [], none)
  | o :: rest =>
    match upd o with
    | .error e => ([o], [], some e)
    | .ok logs =>
      let r := runUpdates upd rest
      (o :: r.1, logs ++ r.2.1, r.2.2)

/-- `ConcreteSubject.notify(self)`: triggers `update(self)` on each subscriber
in list order. -/
def ConcreteSubject.notify (st : ConcreteSubject) :
    List Obs × List LogEvent × Option PyError :=
  runUpdates (fun o => o.update st.state) st.observers

/-- `random.randrange(lo, hi)`, embedded as a seed-indexed choice:
for `lo < hi` the value `lo + seed % (hi - lo)` ranges over `[lo, hi)`. -/
def randrange (lo hi : Int) (seed : Nat) : Int :=
  lo + (seed : Int) % (hi - lo)

/-- `ConcreteSubject.do_some_business_logic(self)`:
`self.state = randrange(0, 10)` and then `self.notify()`. -/
def ConcreteSubject.do_some_business_logic (st : ConcreteSubject) (seed : Nat) :
    ConcreteSubject × (List Obs × List LogEvent × Option PyError) :=
  let st1 := { st with state := some (randrange 0 10 seed) }
  (st1, st1.notify)

/-- An attach or detach call, for reasoning about call sequences. -/
inductive Op
  | attachOp (o : Obs)
  | detachOp (o : Obs)
deriving DecidableEq, Repr

/-- Runs a sequence of attach/detach calls on a subject, counting the attach
calls and the successful (non-raising) detach calls. -/
def runOps : ConcreteSubject → List Op → ConcreteSubject × Nat × Nat
  | st, [] => (st, 0, 0)
  | st, Op.attachOp o :: rest =>
    ((runOps (st.attach o) rest).1,
     (runOps (st.attach o) rest).2.1 + 1,
     (runOps (st.attach o) rest).2.2)
  | st, Op.detachOp o :: rest =>
    ((runOps (st.detach o).1 rest).1,
     (runOps (st.detach o).1 rest).2.1,
     if (st.detach o).2 = none then (runOps (st.detach o).1 rest).2.2 + 1
     else (runOps (st.detach o).1 rest).2.2)

/-- The Python object graph behind `ConcreteSubject`'s class attributes:
`_observers = []` is evaluated once at class creation time, so every instance
shares the one list object, while `self.state = ...` writes an instance
attribute (instances are indexed by `Nat`; `none` is the class default
`None`). -/
structure ClassWorld where
  observers : List Obs
  instState : Nat → Option Int

/-- `attach` called through instance `self` mutates the single shared
class-level list. -/
def ClassWorld.attach (w : ClassWorld) (_self : Nat) (o : Obs) : ClassWorld :=
  { w with observers := w.observers ++ [o] }

/-- `notify` called through instance `self` iterates the single shared
class-level list, reading `self`'s state. -/
def ClassWorld.notify (w : ClassWorld) (self : Nat) :
    List Obs × List LogEvent × Option PyError :=
  runUpdates (fun o => o.update (w.instState self)) w.observers

/-- Boolean success test for an update result. -/
def isOkB : Except PyError (List LogEvent) → Bool
  | .ok _ => true
  | .error _ => false

/-! Helper lemmas shared by the claim theorems. -/

theorem update_some_isOk (o : Obs) (s : Int) : isOkB (o.update (some s)) = true := by
  cases o with
  | mk k i =>
    cases k <;>
      simp [Obs.update, ConcreteObserverA.update, ConcreteObserverB.update, isOkB]

theorem runUpdates_all_ok (upd : Obs → Except PyError (List LogEvent)) :
    ∀ L : List Obs, L.all (fun x => isOkB (upd x)) = true →
      (runUpdates upd L).1 = L ∧ (runUpdates upd L).2.2 = none := by
  intro L
  induction L with
  | nil => intro _; exact ⟨rfl, rfl⟩
  | cons o rest ih =>
    intro h
    rw [List.all_cons, Bool.and_eq_true] at h
    obtain ⟨ho, hrest⟩ := h
    obtain ⟨h1, h2⟩ := ih hrest
    cases hu : upd o with
    | error e => rw [hu] at ho; simp [isOkB] at ho
    | ok logs => simp [runUpdates, hu, h1, h2]

theorem listRemove_not_mem (o : Obs) :
    ∀ L : List Obs, o ∉ L → listRemove L o = .error .valueError := by
  intro L
  induction L with
  | nil => intro _; rfl
  | cons y ys ih =>
    intro h
    have hy : ¬ y = o := fun e => h (e ▸ List.mem_cons_self y ys)
    have ho : o ∉ ys := fun m => h (List.mem_cons_of_mem y m)
    simp [listRemove, hy, ih ho, Except.map]

theorem listRemove_ok_length (o : Obs) :
    ∀ L l : List Obs, listRemove L o = .ok l → l.length + 1 = L.length := by
  intro L
  induction L with
  | nil => intro l h; simp [listRemove] at h
  | cons y ys ih =>
    intro l h
    by_cases hy : y = o
    · simp [listRemove, hy] at h
      simp [← h]
    · simp [listRemove, hy] at h
      cases hr : listRemove ys o with
      | error e => rw [hr] at h; simp [Except.map] at h
      | ok l2 =>
        rw [hr] at h
        simp [Except.map] at h
        have := ih l2 hr
        simp [← h, List.length_cons]
        omega

theorem listRemove_append_self (o : Obs) :
    ∀ L : List Obs, ∃ l, listRemove (L ++ [o]) o = .ok l ∧ l.Perm L := by
  intro L
  induction L with
  | nil => exact ⟨[], by simp [listRemove], List.Perm.refl []⟩
  | cons y ys ih =>
    by_cases hy : y = o
    · refine ⟨ys ++ [o], ?_, ?_⟩
      · simp [listRemove, hy]
      · subst hy
        exact List.perm_append_singleton y ys
    · obtain ⟨l, hl, hp⟩ := ih
      exact ⟨y :: l, by simp [listRemove, hy, hl, Except.map], hp.cons y⟩

theorem runOps_length_invariant :
    ∀ (ops : List Op) (st : ConcreteSubject),
      (runOps st ops).1.observers.length + (runOps st ops).2.2 =
        st.observers.length + (runOps st ops).2.1 := by
  intro ops
  induction ops with
  | nil => intro st; simp [runOps]
  | cons op rest ih =>
    intro st
    cases op with
    | attachOp o =>
      have hinv := ih (st.attach o)
      have hlen : (st.attach o).observers.length = st.observers.length + 1 := by
        simp [ConcreteSubject.attach]
      simp only [runOps]
      omega
    | detachOp o =>
      cases hr : listRemove st.observers o with
      | ok l =>
        have hd : st.detach o = ({ st with observers := l }, none) := by
          simp [ConcreteSubject.detach, hr]
        have hlen := listRemove_ok_length o st.observers l hr
        have hinv := ih { st with observers := l }
        simp only [runOps, hd]
        simp at hinv ⊢
        omega
      | error e =>
        have hd : st.detach o = (st, some e) := by
          simp [ConcreteSubject.detach, hr]
        have hinv := ih st
        simp only [runOps, hd]
        simp
        omega

/-! Claim theorems. -/

/-- C2: `ConcreteObserverA.update` reacts exactly when the subject state is
strictly below 8 and `ConcreteObserverB.update` reacts exactly when it is
strictly above 4; in particular at state 3 only A reacts and at state 9 only
B reacts. -/
theorem observer_thresholds (s : Int) :
    ConcreteObserverA.update (some s) = .ok (if s < 8 then [.reactA] else []) ∧
    ConcreteObserverB.update (some s) = .ok (if s > 4 then [.reactB] else []) ∧
    ConcreteObserverA.update (some 3) = .ok [.reactA] ∧
    ConcreteObserverB.update (some 3) = .ok [] ∧
    ConcreteObserverA.update (some 9) = .ok [] ∧
    ConcreteObserverB.update (some 9) = .ok [.reactB] := by
  refine ⟨rfl, rfl, ?_, ?_, ?_, ?_⟩ <;>
    simp [ConcreteObserverA.update, ConcreteObserverB.update]

/-- C3: detaching an observer that is not in the observer list raises the
ValueError coming from `list.remove`, uncaught and untransformed, and leaves
the subject, in particular its observer list, unchanged. -/
theorem detach_absent_raises (st : ConcreteSubject) (o : Obs)
    (h : o ∉ st.observers) :
    st.detach o = (st, some .valueError) := by
  simp [ConcreteSubject.detach, listRemove_not_mem o st.observers h]

/-- Witness for `detach_absent_raises` at a concrete subject and observer. -/
theorem detach_absent_raises_witness :
    (⟨.B, 1⟩ : Obs) ∉
      ({ state := none, observers := [⟨.A, 0⟩] } : ConcreteSubject).observers ∧
    ConcreteSubject.detach { state := none, observers := [⟨.A, 0⟩] } ⟨.B, 1⟩ =
      ({ state := none, observers := [⟨.A, 0⟩] }, some .valueError) :=
  ⟨by decide, detach_absent_raises _ _ (by decide)⟩

/-- C4: `ConcreteSubject._observers` is a class attribute, a single list
object shared by every instance, so attaching an observer through instance 0
changes the observers that instance 1 notifies (from none to that observer). -/
theorem shared_class_observer_list :
    (ClassWorld.notify (ClassWorld.attach ⟨[], fun _ => none⟩ 0 ⟨.A, 0⟩) 1).1 =
      [⟨.A, 0⟩] ∧
    (ClassWorld.notify ⟨[], fun _ => none⟩ 1).1 = [] :=
  ⟨rfl, rfl⟩

/-- C9: notify on a subject with an empty observer list invokes no update,
prints nothing and raises nothing. -/
theorem notify_empty_no_calls (σ : Option Int) :
    ConcreteSubject.notify { state := σ, observers := [] } = ([], [], none) :=
  rfl

/-- C10: before any `do_some_business_logic` call the state is the class
default `None` (and attach/detach do not change it), and notify with any
observer attached invokes that first observer's update, whose `None`
comparison raises TypeError instead of completing as a no-op. -/
theorem initial_state_none_notify_raises :
    freshSubject.state = none ∧
    (∀ (st : ConcreteSubject) (o : Obs), (st.attach o).state = st.state) ∧
    (∀ (st : ConcreteSubject) (o : Obs), (st.detach o).1.state = st.state) ∧
    (∀ (o : Obs) (rest : List Obs),
      ConcreteSubject.notify { state := none, observers := o :: rest } =
        ([o], [], some .typeError)) := by
  refine ⟨rfl, fun st o => rfl, fun st o => ?_, fun o rest => ?_⟩
  · cases hr : listRemove st.observers o <;> simp [ConcreteSubject.detach, hr]
  · have hupd : o.update none = .error .typeError := by
      cases o with
      | mk k i => cases k <;> rfl
    simp [ConcreteSubject.notify, runUpdates, hupd]

/-- C1: `do_some_business_logic` first sets the state to the drawn
`randrange 0 10` value, which lies in `[0, 10)`, and only then calls notify
on the updated subject, so every attached observer's update is invoked
exactly once, in attachment order, reading the fully updated state, and no
exception is raised. -/
theorem business_logic_in_range_then_notify (st : ConcreteSubject) (seed : Nat) :
    0 ≤ randrange 0 10 seed ∧ randrange 0 10 seed < 10 ∧
    st.do_some_business_logic seed =
      ({ st with state := some (randrange 0 10 seed) },
       ConcreteSubject.notify { st with state := some (randrange 0 10 seed) }) ∧
    (st.do_some_business_logic seed).2.1 = st.observers ∧
    (st.do_some_business_logic seed).2.2.2 = none := by
  have hrr : randrange 0 10 seed = (seed : Int) % 10 := by
    simp [randrange]
  have hok : st.observers.all
      (fun x => isOkB (x.update (some (randrange 0 10 seed)))) = true := by
    rw [List.all_eq_true]
    intro x _
    exact update_some_isOk x _
  have hmain := runUpdates_all_ok
    (fun x => x.update (some (randrange 0 10 seed))) st.observers hok
  refine ⟨?_, ?_, rfl, ?_, ?_⟩
  · rw [hrr]
    exact Int.emod_nonneg _ (by norm_num)
  · rw [hrr]
    exact Int.emod_lt_of_pos _ (by norm_num)
  · simpa [ConcreteSubject.do_some_business_logic, ConcreteSubject.notify]
      using hmain.1
  · simpa [ConcreteSubject.do_some_business_logic, ConcreteSubject.notify]
      using hmain.2

/-- C5: after any sequence of attach and detach calls on a fresh subject,
the observer list length is the number of attach calls minus the number of
successful detach calls. -/
theorem attach_detach_length_accounting (ops : List Op) :
    (runOps freshSubject ops).1.observers.length =
      (runOps freshSubject ops).2.1 - (runOps freshSubject ops).2.2 := by
  have h := runOps_length_invariant ops freshSubject
  have h0 : freshSubject.observers.length = 0 := rfl
  omega

/-- C6: attaching an observer and then detaching it succeeds and returns the
observer list to its prior membership: the resulting list is a permutation of
the prior one, so every observer occurs with its prior multiplicity. -/
theorem attach_then_detach_round_trip (st : ConcreteSubject) (o : Obs) :
    ((st.attach o).detach o).2 = none ∧
    ((st.attach o).detach o).1.observers.Perm st.observers ∧
    ∀ x : Obs, x ∈ ((st.attach o).detach o).1.observers ↔ x ∈ st.observers := by
  obtain ⟨l, hl, hp⟩ := listRemove_append_self o st.observers
  have hd : (st.attach o).detach o = ({ st.attach o with observers := l }, none) := by
    simp [ConcreteSubject.detach, ConcreteSubject.attach, hl]
  rw [hd]
  exact ⟨rfl, hp, fun x => hp.mem_iff⟩

/-- C7: attaching the same observer reference twice yields two list entries,
notify then invokes that observer's update twice (and raises nothing when the
state is set), and one detach removes only the first matching entry, leaving
a single entry. -/
theorem attach_twice_duplicates (o : Obs) (s : Int) :
    ((freshSubject.attach o).attach o).observers = [o, o] ∧
    (ConcreteSubject.notify { state := some s, observers := [o, o] }).1 = [o, o] ∧
    (ConcreteSubject.notify { state := some s, observers := [o, o] }).2.2 = none ∧
    ((freshSubject.attach o).attach o).detach o =
      ({ state := none, observers := [o] }, none) := by
  have hok : ([o, o] : List Obs).all (fun x => isOkB (x.update (some s))) = true := by
    rw [List.all_eq_true]
    intro x _
    exact update_some_isOk x s
  have hmain := runUpdates_all_ok (fun x => x.update (some s)) [o, o] hok
  refine ⟨rfl, ?_, ?_, ?_⟩
  · simpa [ConcreteSubject.notify] using hmain.1
  · simpa [ConcreteSubject.notify] using hmain.2
  · simp [freshSubject, ConcreteSubject.attach, ConcreteSubject.detach, listRemove]

/-- C8: when an observer's update raises, the notify loop invokes exactly the
observers up to and including the raising one, skips every later observer,
and propagates the same exception to the caller. -/
theorem notify_error_stops (upd : Obs → Except PyError (List LogEvent))
    (L1 L2 : List Obs) (o : Obs) (e : PyError)
    (h1 : L1.all (fun x => isOkB (upd x)) = true)
    (h2 : upd o = .error e) :
    (runUpdates upd (L1 ++ o :: L2)).1 = L1 ++ [o] ∧
    (runUpdates upd (L1 ++ o :: L2)).2.2 = some e := by
  induction L1 with
  | nil => simp [runUpdates, h2]
  | cons x xs ih =>
    rw [List.all_cons, Bool.and_eq_true] at h1
    obtain ⟨hx, hxs⟩ := h1
    cases hu : upd x with
    | error e2 => rw [hu] at hx; simp [isOkB] at hx
    | ok logs =>
      obtain ⟨ih1, ih2⟩ := ih hxs
      simp [runUpdates, hu, ih1, ih2]

/-- A concrete update table for exercising the notify loop: the observer with
identity 0 succeeds, every other observer raises TypeError. -/
def demoUpd : Obs → Except PyError (List LogEvent) :=
  fun x => if x.id = 0 then .ok [] else .error .typeError

/-- Witness for `notify_error_stops` at a concrete update table and lists. -/
theorem notify_error_stops_witness :
    ([⟨.A, 0⟩] : List Obs).all (fun x => isOkB (demoUpd x)) = true ∧
    demoUpd ⟨.B, 1⟩ = .error .typeError ∧
    (runUpdates demoUpd ([⟨.A, 0⟩] ++ ⟨.B, 1⟩ :: [⟨.A, 2⟩])).1 =
      [⟨.A, 0⟩] ++ [⟨.B, 1⟩] ∧
    (runUpdates demoUpd ([⟨.A, 0⟩] ++ ⟨.B, 1⟩ :: [⟨.A, 2⟩])).2.2 =
      some .typeError :=
  ⟨by decide, rfl,
   (notify_error_stops demoUpd [⟨.A, 0⟩] [⟨.A, 2⟩] ⟨.B, 1⟩ .typeError
     (by decide) rfl).1,
   (notify_error_stops demoUpd [⟨.A, 0⟩] [⟨.A, 2⟩] ⟨.B, 1⟩ .typeError
     (by decide) rfl).2⟩

end ObserverPy
